import Mathlib

/-!
Verification development for the softmax classifier loss
(`CNNVR/classifiers/softmax.py`) and the fully-connected network models
(`cs231n/2016/assignment2/cs231n/classifiers/fc_net.py`).

Machine floats are embedded as exact real arithmetic; numpy arrays of shape
(N, D) become functions `Fin N → Fin D → ℝ`; Python exceptions become
`Except String`.
-/

open Finset

namespace SoftmaxPy

noncomputable section

variable {N D C : ℕ}

/-- Scores `f = X.dot(W)`: row `i` holds the unnormalized class scores of
example `i` (both implementations compute this product). -/
def scoresOf (W : Fin D → Fin C → ℝ) (X : Fin N → Fin D → ℝ) :
    Fin N → Fin C → ℝ :=
  fun i j => ∑ k, X i k * W k j

/-- Row maximum `np.max(f_scores)` over the `C` entries of one score row.
Junk value `0` when `C = 0`; numpy raises there, which the `Except` wrapper
models. -/
def rowMax (f : Fin C → ℝ) : ℝ :=
  if h : (Finset.univ : Finset (Fin C)).Nonempty then Finset.univ.sup' h f else 0

/-- Global maximum `np.max(f)` over the whole N×C score matrix, as taken by
`softmax_loss_vectorized`. Junk value `0` on an empty matrix. -/
def globalMax (f : Fin N → Fin C → ℝ) : ℝ :=
  if h : (Finset.univ : Finset (Fin N × Fin C)).Nonempty then
    Finset.univ.sup' h (fun p => f p.1 p.2)
  else 0

/-- Shifted scores of example `i` inside the naive loop:
`f_scores = X[i, :].dot(W)` followed by `f_scores -= np.max(f_scores)`. -/
def naiveShifted (W : Fin D → Fin C → ℝ) (X : Fin N → Fin D → ℝ) (i : Fin N) :
    Fin C → ℝ :=
  fun j => scoresOf W X i j - rowMax (scoresOf W X i)

/-- Loss contribution of example `i` in the naive loop:
`loss += -f_scores[y[i]] + np.log(np.sum(np.exp(f_scores)))`. -/
def naiveRowLoss (W : Fin D → Fin C → ℝ) (X : Fin N → Fin D → ℝ)
    (y : Fin N → Fin C) (i : Fin N) : ℝ :=
  -(naiveShifted W X i (y i)) + Real.log (∑ j, Real.exp (naiveShifted W X i j))

/-- Contribution of example `i` to `dW[k, j]` in the naive double loop:
`dW[:, j] += X[i, :] * (-1 * (j == y[i])) + np.exp(f_scores[j]) / (np.sum(np.exp(f_scores)))`.
With Python's precedence the probability quotient is a scalar added to every
component of the column update, not multiplied by `X[i, :]`. -/
def naiveRowGrad (W : Fin D → Fin C → ℝ) (X : Fin N → Fin D → ℝ)
    (y : Fin N → Fin C) (i : Fin N) (k : Fin D) (j : Fin C) : ℝ :=
  X i k * (if j = y i then -1 else 0)
    + Real.exp (naiveShifted W X i j) / ∑ l, Real.exp (naiveShifted W X i l)

/-- Value produced by `softmax_loss_naive` once the loops finish:
`loss /= num_train`, `dW /= num_train`, then `loss += 0.5 * reg * np.sum(W * W)`
and `dW += reg * W`. -/
def naiveCore (W : Fin D → Fin C → ℝ) (X : Fin N → Fin D → ℝ)
    (y : Fin N → Fin C) (reg : ℝ) : ℝ × (Fin D → Fin C → ℝ) :=
  ((∑ i, naiveRowLoss W X y i) / (N : ℝ)
      + 0.5 * reg * ∑ k, ∑ j, W k j * W k j,
   fun k j => (∑ i, naiveRowGrad W X y i k j) / (N : ℝ) + reg * W k j)

/-- `softmax_loss_naive(W, X, y, reg)`. For `N = 0` the loop body never runs and
the Python statement `loss /= num_train` divides the float `0.0` by the int `0`,
raising ZeroDivisionError; for `N > 0` and `C = 0` the first iteration's
`np.max(f_scores)` reduces an empty array and raises ValueError. -/
def softmax_loss_naive (W : Fin D → Fin C → ℝ) (X : Fin N → Fin D → ℝ)
    (y : Fin N → Fin C) (reg : ℝ) : Except String (ℝ × (Fin D → Fin C → ℝ)) :=
  if N = 0 then .error "ZeroDivisionError: float division by zero"
  else if C = 0 then
    .error "ValueError: zero-size array to reduction operation maximum which has no identity"
  else .ok (naiveCore W X y reg)

/-- Shifted scores in `softmax_loss_vectorized`: `f = np.dot(X, W)` followed by
`f -= np.max(f)` where `np.max(f)` is the single global maximum of the matrix. -/
def vecShifted (W : Fin D → Fin C → ℝ) (X : Fin N → Fin D → ℝ) :
    Fin N → Fin C → ℝ :=
  fun i j => scoresOf W X i j - globalMax (scoresOf W X)

/-- Value produced by `softmax_loss_vectorized`:
`scores = np.exp(f)`, `scores_sums = np.sum(scores, axis=1)`,
`loss = np.sum(-f_correct + np.log(scores_sums))`,
`sum = scores / scores_sums; sum += bi_matrix; dW = X.T.dot(sum)`,
then `loss /= num_train`, `loss += 0.5 * reg * np.sum(W * W)`,
`dW /= num_train`, `dW += reg * W`. -/
def vecCore (W : Fin D → Fin C → ℝ) (X : Fin N → Fin D → ℝ)
    (y : Fin N → Fin C) (reg : ℝ) : ℝ × (Fin D → Fin C → ℝ) :=
  ((∑ i, (-(vecShifted W X i (y i))
        + Real.log (∑ j, Real.exp (vecShifted W X i j)))) / (N : ℝ)
      + 0.5 * reg * ∑ k, ∑ j, W k j * W k j,
   fun k j =>
     (∑ i, X i k * (Real.exp (vecShifted W X i j)
         / (∑ l, Real.exp (vecShifted W X i l))
         + (if j = y i then -1 else 0))) / (N : ℝ)
       + reg * W k j)

/-- `softmax_loss_vectorized(W, X, y, reg)`. When the score matrix is empty
(`N = 0`, or `C = 0`) the call `np.max(f)` reduces an empty array and raises
ValueError before anything is returned. -/
def softmax_loss_vectorized (W : Fin D → Fin C → ℝ) (X : Fin N → Fin D → ℝ)
    (y : Fin N → Fin C) (reg : ℝ) : Except String (ℝ × (Fin D → Fin C → ℝ)) :=
  if N = 0 ∨ C = 0 then
    .error "ValueError: zero-size array to reduction operation maximum which has no identity"
  else .ok (vecCore W X y reg)

/-- Spec formula for the per-row loss stated on row-max-shifted scores:
`-shifted_score[i, label[i]] + log(sum_j exp(shifted_score[i, j]))` with
`shifted_score` the score row after subtracting its maximum. -/
def specRowLossShifted (s : Fin C → ℝ) (c : Fin C) : ℝ :=
  -(s c - rowMax s) + Real.log (∑ j, Real.exp (s j - rowMax s))

/-- Spec formula for the whole loss: mean of the shifted per-row contributions
over the `N` rows plus the regularization term `0.5 * reg * sum(W * W)`. -/
def specLossRowMax (W : Fin D → Fin C → ℝ) (X : Fin N → Fin D → ℝ)
    (y : Fin N → Fin C) (reg : ℝ) : ℝ :=
  (∑ i, specRowLossShifted (scoresOf W X i) (y i)) / (N : ℝ)
    + 0.5 * reg * ∑ k, ∑ j, W k j * W k j

/-- Per-row softmax cross-entropy loss on raw (unshifted) scores. -/
def rowLossUnshifted (s : Fin C → ℝ) (c : Fin C) : ℝ :=
  -(s c) + Real.log (∑ j, Real.exp (s j))

/-- The softmax loss computed directly from the unshifted scores (mean of the
unshifted per-row contributions plus the regularization term). -/
def specLossUnshifted (W : Fin D → Fin C → ℝ) (X : Fin N → Fin D → ℝ)
    (y : Fin N → Fin C) (reg : ℝ) : ℝ :=
  (∑ i, rowLossUnshifted (scoresOf W X i) (y i)) / (N : ℝ)
    + 0.5 * reg * ∑ k, ∑ j, W k j * W k j

/-- Softmax probability of class `j` for a score row `s`:
`exp(s[j]) / sum_k exp(s[k])`. -/
def softmaxProb (s : Fin C → ℝ) (j : Fin C) : ℝ :=
  Real.exp (s j) / ∑ k, Real.exp (s k)

/-- Spec formula for the score gradient:
`d_scores[i, j] = (softmax_prob[i, j] - 1{j == y[i]}) / N`. -/
def specDscores (W : Fin D → Fin C → ℝ) (X : Fin N → Fin D → ℝ)
    (y : Fin N → Fin C) (i : Fin N) (j : Fin C) : ℝ :=
  (softmaxProb (scoresOf W X i) j - (if j = y i then 1 else 0)) / (N : ℝ)

/-- Spec formula for the weight gradient: `X^T · d_scores + reg * W`. -/
def specGrad (W : Fin D → Fin C → ℝ) (X : Fin N → Fin D → ℝ)
    (y : Fin N → Fin C) (reg : ℝ) (k : Fin D) (j : Fin C) : ℝ :=
  (∑ i, X i k * specDscores W X y i j) + reg * W k j

/-- Concrete weight matrix for evaluating the two implementations:
`W = np.zeros((1, 2))`. -/
def Wc : Fin 1 → Fin 2 → ℝ := fun _ _ => 0

/-- Concrete data matrix `X = [[2.0]]` (one example, one feature). -/
def Xc : Fin 1 → Fin 1 → ℝ := fun _ _ => 2

/-- Concrete label vector `y = [0]`. -/
def yc : Fin 1 → Fin 2 := fun _ => 0

end

end SoftmaxPy

namespace FcNetPy

noncomputable section

/-- Modelled from the spec: `affine_forward` from `cs231n.layers` is not under
src/; per §6 and the glossary it is the affine layer `y = xW + b`. -/
def affine_forward {n d m : ℕ} (x : Fin n → Fin d → ℝ) (w : Fin d → Fin m → ℝ)
    (b : Fin m → ℝ) : Fin n → Fin m → ℝ :=
  fun i j => (∑ k, x i k * w k j) + b j

/-- Modelled from the spec: the ReLU nonlinearity used by the layer primitives
(elementwise `max(x, 0)`). -/
def reluMap {n m : ℕ} (x : Fin n → Fin m → ℝ) : Fin n → Fin m → ℝ :=
  fun i j => max (x i j) 0

/-- Modelled from the spec: `affine_relu_forward` from `cs231n.layer_utils` is
not under src/; it is the affine transform followed by the ReLU activation. -/
def affine_relu_forward {n d m : ℕ} (x : Fin n → Fin d → ℝ)
    (w : Fin d → Fin m → ℝ) (b : Fin m → ℝ) : Fin n → Fin m → ℝ :=
  reluMap (affine_forward x w b)

/-- State of a `TwoLayerNet`: the parameter map {W1, b1, W2, b2} and the
regularization strength stored by `__init__`. -/
structure TwoLayerNet (D M C : ℕ) where
  W1 : Fin D → Fin M → ℝ
  b1 : Fin M → ℝ
  W2 : Fin M → Fin C → ℝ
  b2 : Fin C → ℝ
  reg : ℝ

/-- Forward pass of `TwoLayerNet.loss`:
`hidden, _ = affine_relu_forward(X, W1, b1); scores, _ = affine_forward(hidden, W2, b2)`.
When `y is None` the method returns exactly these scores. -/
def TwoLayerNet.scores {D M C n : ℕ} (net : TwoLayerNet D M C)
    (X : Fin n → Fin D → ℝ) : Fin n → Fin C → ℝ :=
  affine_forward (affine_relu_forward X net.W1 net.b1) net.W2 net.b2

/-- Modelled from the spec: untyped affine layer for the arbitrary-depth net,
with the input width `dIn` passed explicitly (numpy infers it from the array
shape). -/
def affineU (dIn : ℕ) (x : ℕ → ℕ → ℝ) (w : ℕ → ℕ → ℝ) (b : ℕ → ℝ) :
    ℕ → ℕ → ℝ :=
  fun i j => (∑ k ∈ Finset.range dIn, x i k * w k j) + b j

/-- Modelled from the spec: untyped elementwise ReLU. -/
def reluU (x : ℕ → ℕ → ℝ) : ℕ → ℕ → ℝ :=
  fun i j => max (x i j) 0

/-- State of a `FullyConnectedNet` after `__init__`: layer count
`L = len(hidden_dims) + 1`, the dimension list `[input_dim] + hidden_dims +
[num_classes]`, the two toggles, the regularization strength, and the parameter
map entries `W1..WL`, `b1..bL` (plus `gamma1.., beta1..` when batchnorm is on),
addressed here by their 1-based layer index. -/
structure FullyConnectedNet where
  numLayers : ℕ
  dims : List ℕ
  use_batchnorm : Bool
  use_dropout : Bool
  reg : ℝ
  Wp : ℕ → ℕ → ℕ → ℝ
  bp : ℕ → ℕ → ℝ
  gammap : ℕ → ℕ → ℝ
  betap : ℕ → ℕ → ℝ

/-- Forward pass of `FullyConnectedNet.loss`: for `idx` in 1..L the loop fetches
`params['W' + str(idx)]` and `params['b' + str(idx)]` and applies
`affine_relu_forward`, except `affine_forward` alone for the last layer. The
loop reads neither the toggles nor the gamma/beta parameters. When
`y is None` (`mode == 'test'`) the method returns exactly these scores. -/
def FullyConnectedNet.scores (net : FullyConnectedNet) (X : ℕ → ℕ → ℝ) :
    ℕ → ℕ → ℝ :=
  (List.range net.numLayers).foldl
    (fun hidden i =>
      let idx := i + 1
      if idx = net.numLayers then
        affineU (net.dims.getD (idx - 1) 0) hidden (net.Wp idx) (net.bp idx)
      else
        reluU (affineU (net.dims.getD (idx - 1) 0) hidden (net.Wp idx) (net.bp idx)))
    X

end

/-- Parameter-map keys created by `FullyConnectedNet.__init__` for `L` layers:
`'W' + str(i+1)` and `'b' + str(i+1)` for each of the `L` affine layers, plus
`'beta' + str(i+1)` and `'gamma' + str(i+1)` for layers 1..L-1 when
`use_batchnorm` is set. -/
def fcParamKeys (L : ℕ) (useBN : Bool) : List String :=
  ((List.range L).map fun i => "W" ++ toString (i + 1)) ++
    ((List.range L).map fun i => "b" ++ toString (i + 1)) ++
    (if useBN then
      ((List.range (L - 1)).map fun i => "beta" ++ toString (i + 1)) ++
        ((List.range (L - 1)).map fun i => "gamma" ++ toString (i + 1))
    else [])

/-- Gradient-map keys returned by the training branch of
`FullyConnectedNet.loss`: `list_dW` contributes `'W' + str(idx)` and `list_db`
contributes `'b' + str(idx)` for `idx` in 1..L — nothing else. -/
def fcGradKeys (L : ℕ) : List String :=
  ((List.range L).map fun i => "W" ++ toString (i + 1)) ++
    ((List.range L).map fun i => "b" ++ toString (i + 1))

/-- Parameter-map keys created by `TwoLayerNet.__init__`. -/
def twoLayerParamKeys : List String := ["W1", "b1", "W2", "b2"]

/-- Gradient-map keys returned by the training branch of `TwoLayerNet.loss`. -/
def twoLayerGradKeys : List String := ["W1", "b1", "W2", "b2"]

/-- Numpy random primitive called by a weight initializer. -/
inductive NumpyRandFn
  | randn
  | rand
deriving DecidableEq

/-- Mean of the distribution each numpy primitive samples from:
`np.random.randn` draws from the standard normal distribution (mean 0);
`np.random.rand` draws uniformly from [0, 1) (mean 1/2). -/
noncomputable def NumpyRandFn.mean : NumpyRandFn → ℝ
  | .randn => 0
  | .rand => 1 / 2

/-- Random primitive used for the weights in `TwoLayerNet.__init__`:
`W1 = weight_scale * np.random.randn(D, M)` and likewise `W2`. -/
def twoLayerNetWeightRandFn : NumpyRandFn := .randn

/-- Random primitive used for the weights in `FullyConnectedNet.__init__`:
`Ws['W' + str(i+1)] = weight_scale * np.random.rand(dims[i], dims[i+1])`. -/
def fullyConnectedNetWeightRandFn : NumpyRandFn := .rand

/-- Bias initializer of both constructors: `np.zeros(dim)`. -/
noncomputable def biasInit (dim : ℕ) : Fin dim → ℝ := fun _ => 0

/-- Python value passed as the `hidden_dims` argument; the constructor's check
inspects only the container type. Elements are modelled as integers. -/
inductive PyDimsArg
  | pylist (l : List ℤ)
  | pytuple (l : List ℤ)
  | pyother
deriving DecidableEq

/-- Configuration check at the top of `FullyConnectedNet.__init__`:
`if type(hidden_dims) != list: raise ValueError('hidden_dim has to be a list')`.
No other validation of the argument is performed there. -/
def hiddenDimsCheck : PyDimsArg → Except String Unit
  | .pylist _ => .ok ()
  | _ => .error "hidden_dim has to be a list"

/-- Whether the Python value is a `list`. -/
def PyDimsArg.isPyList : PyDimsArg → Bool
  | .pylist _ => true
  | _ => false

/-- Spec-side predicate (the claim's words): the argument is a proper sequence
(list or tuple) whose elements are all positive integers. -/
def properPositiveIntSeq : PyDimsArg → Prop
  | .pylist l => ∀ x ∈ l, 0 < x
  | .pytuple l => ∀ x ∈ l, 0 < x
  | .pyother => False

end FcNetPy

namespace SoftmaxPy

variable {N D C : ℕ}

/-- Factoring a common shift out of a sum of exponentials. -/
theorem sum_exp_shift (s : Fin C → ℝ) (m : ℝ) :
    (∑ j, Real.exp (s j - m)) = (∑ j, Real.exp (s j)) * Real.exp (-m) := by
  rw [Finset.sum_mul]
  refine Finset.sum_congr rfl fun j _ => ?_
  rw [← Real.exp_add]
  ring_nf

/-- With at least one class, the sum of exponentials of a score row is
positive. -/
theorem sum_exp_pos (hC : 0 < C) (s : Fin C → ℝ) :
    0 < ∑ j, Real.exp (s j) :=
  Finset.sum_pos (fun j _ => Real.exp_pos _) ⟨⟨0, hC⟩, Finset.mem_univ _⟩

/-- The per-row softmax loss is invariant under subtracting any constant from
the whole row. -/
theorem rowLoss_shift (hC : 0 < C) (s : Fin C → ℝ) (m : ℝ) (c : Fin C) :
    -(s c - m) + Real.log (∑ j, Real.exp (s j - m)) = rowLossUnshifted s c := by
  rw [sum_exp_shift,
    Real.log_mul (ne_of_gt (sum_exp_pos hC s)) (Real.exp_ne_zero _),
    Real.log_exp, rowLossUnshifted]
  ring

/-- The softmax probabilities are invariant under subtracting any constant from
the whole row. -/
theorem softmaxProb_shift (s : Fin C → ℝ) (m : ℝ) (j : Fin C) :
    Real.exp (s j - m) / (∑ k, Real.exp (s k - m)) = softmaxProb s j := by
  rw [sum_exp_shift, sub_eq_add_neg, Real.exp_add, softmaxProb,
    mul_div_mul_right _ _ (Real.exp_ne_zero _)]

/-- Each naive per-row loss contribution equals the unshifted per-row loss. -/
theorem naiveRowLoss_eq_unshifted (hC : 0 < C) (W : Fin D → Fin C → ℝ)
    (X : Fin N → Fin D → ℝ) (y : Fin N → Fin C) (i : Fin N) :
    naiveRowLoss W X y i = rowLossUnshifted (scoresOf W X i) (y i) := by
  unfold naiveRowLoss naiveShifted
  exact rowLoss_shift hC _ _ _

/-- Each vectorized per-row loss contribution equals the unshifted per-row
loss. -/
theorem vecRowLoss_eq_unshifted (hC : 0 < C) (W : Fin D → Fin C → ℝ)
    (X : Fin N → Fin D → ℝ) (y : Fin N → Fin C) (i : Fin N) :
    -(vecShifted W X i (y i)) + Real.log (∑ j, Real.exp (vecShifted W X i j))
      = rowLossUnshifted (scoresOf W X i) (y i) := by
  unfold vecShifted
  exact rowLoss_shift hC _ _ _

/-- The spec's row-max-shifted per-row loss equals the unshifted per-row
loss. -/
theorem specRowLossShifted_eq_unshifted (hC : 0 < C) (s : Fin C → ℝ)
    (c : Fin C) :
    specRowLossShifted s c = rowLossUnshifted s c := by
  unfold specRowLossShifted
  exact rowLoss_shift hC _ _ _

/-- C1: for every weight matrix `W` (D×C), data matrix `X` (N×D) with `N ≥ 1`,
label vector `y` with entries in [0, C), and scalar `reg`, both
`softmax_loss_naive` and `softmax_loss_vectorized` return a loss equal to the
mean over the `N` rows of `-shifted_score[i, y[i]] +
log(sum_j exp(shifted_score[i, j]))` plus the regularization term, where
`shifted_score` is the score row after subtracting the max used for
stability. -/
theorem softmax_loss_matches_shifted_formula {N D C : ℕ} (hN : 0 < N)
    (W : Fin D → Fin C → ℝ) (X : Fin N → Fin D → ℝ) (y : Fin N → Fin C)
    (reg : ℝ) :
    (naiveCore W X y reg).1 = specLossRowMax W X y reg ∧
      (vecCore W X y reg).1 = specLossRowMax W X y reg := by
  have hC : 0 < C := (y ⟨0, hN⟩).pos
  constructor
  · unfold naiveCore specLossRowMax
    simp only [naiveRowLoss_eq_unshifted hC, specRowLossShifted_eq_unshifted hC]
  · unfold vecCore specLossRowMax
    simp only [vecRowLoss_eq_unshifted hC, specRowLossShifted_eq_unshifted hC]

/-- Witness for C1 at N = D = C = 1 with `W = 0`, `X = 0`, `y = [0]`,
`reg = 0`. -/
theorem softmax_loss_matches_shifted_formula_witness :
    (0 : ℕ) < 1 ∧
      ((naiveCore (fun (_ : Fin 1) (_ : Fin 1) => (0 : ℝ))
            (fun (_ : Fin 1) (_ : Fin 1) => (0 : ℝ))
            (fun (_ : Fin 1) => (0 : Fin 1)) 0).1
          = specLossRowMax (fun (_ : Fin 1) (_ : Fin 1) => (0 : ℝ))
              (fun (_ : Fin 1) (_ : Fin 1) => (0 : ℝ))
              (fun (_ : Fin 1) => (0 : Fin 1)) 0 ∧
        (vecCore (fun (_ : Fin 1) (_ : Fin 1) => (0 : ℝ))
            (fun (_ : Fin 1) (_ : Fin 1) => (0 : ℝ))
            (fun (_ : Fin 1) => (0 : Fin 1)) 0).1
          = specLossRowMax (fun (_ : Fin 1) (_ : Fin 1) => (0 : ℝ))
              (fun (_ : Fin 1) (_ : Fin 1) => (0 : ℝ))
              (fun (_ : Fin 1) => (0 : Fin 1)) 0) :=
  ⟨Nat.one_pos, softmax_loss_matches_shifted_formula Nat.one_pos _ _ _ _⟩

/-- C2: the gradient returned by `softmax_loss_vectorized` equals
`X^T · d_scores + reg · W` with
`d_scores[i, j] = (softmax_prob[i, j] - 1{j == y[i]}) / N`, in exact
arithmetic. -/
theorem vectorized_grad_matches_spec {N D C : ℕ} (hN : 0 < N)
    (W : Fin D → Fin C → ℝ) (X : Fin N → Fin D → ℝ) (y : Fin N → Fin C)
    (reg : ℝ) :
    (vecCore W X y reg).2 = specGrad W X y reg := by
  funext k j
  have hterm : ∀ i : Fin N,
      X i k * (Real.exp (vecShifted W X i j)
          / (∑ l, Real.exp (vecShifted W X i l))
          + (if j = y i then -1 else 0))
        = X i k * (softmaxProb (scoresOf W X i) j
            - (if j = y i then 1 else 0)) := by
    intro i
    unfold vecShifted
    rw [softmaxProb_shift]
    split <;> ring
  show (∑ i, X i k * (Real.exp (vecShifted W X i j)
        / (∑ l, Real.exp (vecShifted W X i l))
        + (if j = y i then -1 else 0))) / (N : ℝ) + reg * W k j
      = specGrad W X y reg k j
  unfold specGrad specDscores
  simp only [hterm]
  congr 1
  rw [Finset.sum_div]
  exact Finset.sum_congr rfl fun i _ => mul_div_assoc _ _ _

/-- Witness for C2 at N = D = C = 1 with `W = 0`, `X = 0`, `y = [0]`,
`reg = 0`. -/
theorem vectorized_grad_matches_spec_witness :
    (0 : ℕ) < 1 ∧
      (vecCore (fun (_ : Fin 1) (_ : Fin 1) => (0 : ℝ))
          (fun (_ : Fin 1) (_ : Fin 1) => (0 : ℝ))
          (fun (_ : Fin 1) => (0 : Fin 1)) 0).2
        = specGrad (fun (_ : Fin 1) (_ : Fin 1) => (0 : ℝ))
            (fun (_ : Fin 1) (_ : Fin 1) => (0 : ℝ))
            (fun (_ : Fin 1) => (0 : Fin 1)) 0 :=
  ⟨Nat.one_pos, vectorized_grad_matches_spec Nat.one_pos _ _ _ _⟩

/-- C9: in exact arithmetic the loss computed by both implementations (naive
with its per-row shift, vectorized with its global shift) equals the loss
computed from the unshifted scores, and the softmax data loss is invariant
under adding any per-row constant to the scores. -/
theorem softmax_loss_shift_invariant {N D C : ℕ} (hN : 0 < N)
    (W : Fin D → Fin C → ℝ) (X : Fin N → Fin D → ℝ) (y : Fin N → Fin C)
    (reg : ℝ) :
    (naiveCore W X y reg).1 = specLossUnshifted W X y reg ∧
      (vecCore W X y reg).1 = specLossUnshifted W X y reg ∧
      ∀ (s : Fin N → Fin C → ℝ) (c : Fin N → ℝ),
        (∑ i, rowLossUnshifted (fun j => s i j + c i) (y i))
          = ∑ i, rowLossUnshifted (s i) (y i) := by
  have hC : 0 < C := (y ⟨0, hN⟩).pos
  refine ⟨?_, ?_, ?_⟩
  · unfold naiveCore specLossUnshifted
    simp only [naiveRowLoss_eq_unshifted hC]
  · unfold vecCore specLossUnshifted
    simp only [vecRowLoss_eq_unshifted hC]
  · intro s c
    refine Finset.sum_congr rfl fun i _ => ?_
    have h := rowLoss_shift hC (s i) (-(c i)) (y i)
    simpa [rowLossUnshifted, sub_neg_eq_add] using h

/-- Witness for C9 at N = D = C = 1 with `W = 0`, `X = 0`, `y = [0]`,
`reg = 0`. -/
theorem softmax_loss_shift_invariant_witness :
    (0 : ℕ) < 1 ∧
      ((naiveCore (fun (_ : Fin 1) (_ : Fin 1) => (0 : ℝ))
            (fun (_ : Fin 1) (_ : Fin 1) => (0 : ℝ))
            (fun (_ : Fin 1) => (0 : Fin 1)) 0).1
          = specLossUnshifted (fun (_ : Fin 1) (_ : Fin 1) => (0 : ℝ))
              (fun (_ : Fin 1) (_ : Fin 1) => (0 : ℝ))
              (fun (_ : Fin 1) => (0 : Fin 1)) 0 ∧
        (vecCore (fun (_ : Fin 1) (_ : Fin 1) => (0 : ℝ))
            (fun (_ : Fin 1) (_ : Fin 1) => (0 : ℝ))
            (fun (_ : Fin 1) => (0 : Fin 1)) 0).1
          = specLossUnshifted (fun (_ : Fin 1) (_ : Fin 1) => (0 : ℝ))
              (fun (_ : Fin 1) (_ : Fin 1) => (0 : ℝ))
              (fun (_ : Fin 1) => (0 : Fin 1)) 0 ∧
        ∀ (s : Fin 1 → Fin 1 → ℝ) (c : Fin 1 → ℝ),
          (∑ i, rowLossUnshifted (fun j => s i j + c i)
              ((fun (_ : Fin 1) => (0 : Fin 1)) i))
            = ∑ i, rowLossUnshifted (s i) ((fun (_ : Fin 1) => (0 : Fin 1)) i)) :=
  ⟨Nat.one_pos, softmax_loss_shift_invariant Nat.one_pos _ _ _ _⟩

/-- C7: with an empty batch (`N = 0`) both implementations fail with an
explicit raised error — `softmax_loss_naive` from the Python division
`loss /= num_train` of a float by the int 0, `softmax_loss_vectorized` from
`np.max` on the empty score matrix — rather than returning values. -/
theorem softmax_loss_empty_batch_errors {D C : ℕ} (W : Fin D → Fin C → ℝ)
    (X : Fin 0 → Fin D → ℝ) (y : Fin 0 → Fin C) (reg : ℝ) :
    softmax_loss_naive W X y reg
        = .error "ZeroDivisionError: float division by zero" ∧
      softmax_loss_vectorized W X y reg
        = .error "ValueError: zero-size array to reduction operation maximum which has no identity" :=
  ⟨rfl, rfl⟩

/-- The concrete score matrix of the failing input is identically zero. -/
theorem scoresOf_Wc_Xc : scoresOf Wc Xc = fun _ _ => (0 : ℝ) := by
  funext i j
  simp [scoresOf, Wc, Xc]

/-- Row maximum of the zero row. -/
theorem rowMax_zero : rowMax (fun _ : Fin 2 => (0 : ℝ)) = 0 := by
  rw [rowMax, dif_pos Finset.univ_nonempty]
  exact Finset.sup'_const _ _

/-- Global maximum of the zero matrix. -/
theorem globalMax_zero : globalMax (fun (_ : Fin 1) (_ : Fin 2) => (0 : ℝ)) = 0 := by
  rw [globalMax, dif_pos Finset.univ_nonempty]
  exact Finset.sup'_const _ _

/-- The naive shifted scores at the failing input are zero. -/
theorem naiveShifted_Wc_Xc : naiveShifted Wc Xc = fun _ _ => (0 : ℝ) := by
  funext i j
  simp only [naiveShifted, scoresOf_Wc_Xc]
  rw [rowMax_zero, sub_zero]

/-- The vectorized shifted scores at the failing input are zero. -/
theorem vecShifted_Wc_Xc : vecShifted Wc Xc = fun _ _ => (0 : ℝ) := by
  funext i j
  simp only [vecShifted, scoresOf_Wc_Xc]
  rw [globalMax_zero, sub_zero]

/-- C3 (evaluation at the failing input): at `W = [[0, 0]]`, `X = [[2]]`,
`y = [0]`, `reg = 0` the naive implementation returns `dW[0, 0] = -3/2` while
the vectorized one returns `dW[0, 0] = -1`: the two implementations do not
return the same `(loss, dW)` pair. The naive update line adds the softmax
probability as a scalar to the whole column instead of multiplying it by
`X[i, :]`. -/
theorem naive_vectorized_gradients_differ :
    (naiveCore Wc Xc yc 0).2 0 0 = -(3 / 2) ∧
      (vecCore Wc Xc yc 0).2 0 0 = -1 := by
  constructor
  · show (∑ i, naiveRowGrad Wc Xc yc i 0 0) / ((1 : ℕ) : ℝ) + 0 * Wc 0 0
        = -(3 / 2)
    simp only [naiveRowGrad, naiveShifted_Wc_Xc, yc, Xc, Wc]
    rw [Fin.sum_univ_one, Fin.sum_univ_two]
    norm_num [Real.exp_zero]
  · show (∑ i, Xc i 0 * (Real.exp (vecShifted Wc Xc i 0)
          / (∑ l, Real.exp (vecShifted Wc Xc i l))
          + (if (0 : Fin 2) = yc i then -1 else 0))) / ((1 : ℕ) : ℝ)
        + 0 * Wc 0 0 = -1
    simp only [vecShifted_Wc_Xc, yc, Xc, Wc]
    rw [Fin.sum_univ_one, Fin.sum_univ_two]
    norm_num [Real.exp_zero]

end SoftmaxPy

namespace FcNetPy

/-- C10: for any two models (TwoLayerNet or FullyConnectedNet) holding the same
parameter map and differing only in the `reg` value, the inference-mode call
`loss(X)` (y absent) returns identical scores: `reg` is read only after the
test-mode early return. -/
theorem inference_scores_ignore_reg {D M C n : ℕ} (net : TwoLayerNet D M C)
    (r : ℝ) (X : Fin n → Fin D → ℝ) (fnet : FullyConnectedNet) (r2 : ℝ)
    (X2 : ℕ → ℕ → ℝ) :
    TwoLayerNet.scores { net with reg := r } X = TwoLayerNet.scores net X ∧
      FullyConnectedNet.scores { fnet with reg := r2 } X2
        = FullyConnectedNet.scores fnet X2 :=
  ⟨rfl, rfl⟩

/-- C5 (evaluation of the code's forward pass): the forward pass of
`FullyConnectedNet.loss` is unchanged by the batch-norm and dropout toggles and
by the gamma/beta parameters — no batch-norm sub-transform runs before ReLU and
no dropout sub-transform runs after it, whatever the configuration. -/
theorem fcnet_forward_ignores_toggles (net : FullyConnectedNet)
    (bn dr : Bool) (g be : ℕ → ℕ → ℝ) (X : ℕ → ℕ → ℝ) :
    FullyConnectedNet.scores
        { net with use_batchnorm := bn, use_dropout := dr,
                   gammap := g, betap := be } X
      = FullyConnectedNet.scores net X :=
  rfl

/-- C4 (evaluation at the failing configuration): with `use_batchnorm=True` and
one hidden layer (L = 2) the parameter map holds the key `gamma1` that the
gradient map lacks; without batch-norm, and for `TwoLayerNet`, the two key
lists coincide. -/
theorem fcnet_grads_missing_batchnorm_keys :
    "gamma1" ∈ fcParamKeys 2 true ∧ "gamma1" ∉ fcGradKeys 2 ∧
      fcParamKeys 2 false = fcGradKeys 2 ∧
      twoLayerParamKeys = twoLayerGradKeys := by
  decide

/-- C6 (evaluation of the initializers): `TwoLayerNet.__init__` draws weights
with `np.random.randn` (a zero-mean distribution), but
`FullyConnectedNet.__init__` draws them with `np.random.rand`, whose
distribution has mean 1/2 ≠ 0; biases are initialized to zero in both. -/
theorem fcnet_weight_init_not_zero_mean :
    NumpyRandFn.mean twoLayerNetWeightRandFn = 0 ∧
      NumpyRandFn.mean fullyConnectedNetWeightRandFn ≠ 0 ∧
      ∀ (d : ℕ) (j : Fin d), biasInit d j = 0 := by
  refine ⟨rfl, ?_, fun d j => rfl⟩
  norm_num [NumpyRandFn.mean, fullyConnectedNetWeightRandFn]

/-- C8 counterexample: `hidden_dims = [0]` is not a proper sequence of positive
integers, yet the constructor's only configuration check accepts it, so
construction does not fail there. -/
theorem fcnet_accepts_zero_hidden_dim :
    hiddenDimsCheck (.pylist [0]) = .ok () ∧
      ¬ properPositiveIntSeq (.pylist [0]) := by
  refine ⟨rfl, fun h => ?_⟩
  exact absurd (h 0 (by simp)) (lt_irrefl 0)

/-- C8 (amended): `FullyConnectedNet` construction raises its configuration
error iff the hidden-dims argument is not a Python list; the check validates
nothing about the elements. -/
theorem fcnet_config_error_iff_not_list (a : PyDimsArg) :
    (∃ e, hiddenDimsCheck a = .error e) ↔ a.isPyList = false := by
  cases a <;> simp [hiddenDimsCheck, PyDimsArg.isPyList]

end FcNetPy
